import Mathlib

/-!
Formal model of the telims encrypted vault core.

The development shallowly embeds the vault logic of `src/lib/db.ts`
(passphrase validation, `DatabaseService` state and operations, the storage
context) together with `CryptoService` (`src/lib/crypto.ts`) and the unlock
screen guard (`src/components/app/unlock-screen.tsx`).

Platform primitives that are not part of the repository are modelled:
* Web Crypto AES-GCM is modelled as an ideal authenticated cipher: a derived
  key is an injective encoding of (passphrase, salt); an encrypted blob keeps
  the nonce, a masked ciphertext, and an idealized authentication tag that
  verifies exactly for the producing key, nonce and ciphertext (the spec's
  "authenticated-encryption tamper/wrong-key detection" idealization).
* IndexedDB stores are modelled as in-memory record slots / lists; the
  `updatedAt` index cursor in `prev` direction is modelled as sorting by
  `updatedAt` descending.
* `Date.now()`, `crypto.getRandomValues` and `crypto.randomUUID` are passed in
  as explicit parameters; storage failures are injected through a flag.
-/

namespace Telims

instance {ε α : Type} [DecidableEq ε] [DecidableEq α] : DecidableEq (Except ε α) :=
  fun a b =>
    match a, b with
    | .ok x, .ok y => if h : x = y then .isTrue (by rw [h]) else .isFalse (by simp [h])
    | .error e, .error f => if h : e = f then .isTrue (by rw [h]) else .isFalse (by simp [h])
    | .ok _, .error _ => .isFalse (by simp)
    | .error _, .ok _ => .isFalse (by simp)

/-- Injective encoding of a byte/char-code list into a natural number,
used to build ideal derived keys. -/
def encodeList : List Nat → Nat
  | [] => 0
  | a :: l => Nat.pair a (encodeList l) + 1

theorem encodeList_inj : ∀ (l₁ l₂ : List Nat), encodeList l₁ = encodeList l₂ → l₁ = l₂ := by
  intro l₁
  induction l₁ with
  | nil =>
    intro l₂ h
    cases l₂ with
    | nil => rfl
    | cons b t => simp [encodeList] at h
  | cons a t ih =>
    intro l₂ h
    cases l₂ with
    | nil => simp [encodeList] at h
    | cons b t₂ =>
      have h' : Nat.pair a (encodeList t) = Nat.pair b (encodeList t₂) := by
        simpa [encodeList] using h
      obtain ⟨h1, h2⟩ := Nat.pair_eq_pair.mp h'
      rw [h1, ih t₂ h2]

/-- The code points of a string, modelling `TextEncoder`-style encoding. -/
def strBytes (s : String) : List Nat := s.data.map Char.toNat

/-- An encrypted blob: the model of the base64 string
`nonce ∥ ciphertext ∥ tag` produced by `CryptoService.encryptWithKey`.
The `tag` field is the idealized AES-GCM authentication tag: it records the
key, nonce and ciphertext it authenticates, so that verification succeeds
exactly when all three match. -/
structure EncBlob where
  iv : List Nat
  ct : List Nat
  tag : Nat × List Nat × List Nat
deriving DecidableEq

namespace CryptoService

/-- Model of `CryptoService.deriveKey` (PBKDF2-SHA512, 100k iterations,
256-bit AES-GCM key): an ideal key derivation, injective in the
(passphrase, salt) pair. -/
def deriveKey (passphrase : String) (salt : List Nat) : Nat :=
  Nat.pair (encodeList (strBytes passphrase)) (encodeList salt)

/-- Keystream pad of the ideal cipher for a key and nonce. -/
def pad (key : Nat) (iv : List Nat) : Nat := Nat.pair key (encodeList iv)

/-- Model of `CryptoService.encryptWithKey`: AES-GCM encryption of `data`
under `key` with the freshly drawn 12-byte nonce `iv`; returns the blob
holding nonce, ciphertext and authentication tag. -/
def encryptWithKey (data : String) (key : Nat) (iv : List Nat) : EncBlob :=
  ⟨iv, data.data.map fun c => c.toNat + pad key iv,
    (key, iv, data.data.map fun c => c.toNat + pad key iv)⟩

/-- Model of `CryptoService.decryptWithKey`: verifies the authentication tag
against the supplied key, nonce and ciphertext; on success returns the
decrypted plaintext, otherwise `none` (the code throws
`Invalid key or corrupted data`). -/
def decryptWithKey (blob : EncBlob) (key : Nat) : Option String :=
  if blob.tag = (key, blob.iv, blob.ct) then
    some ⟨blob.ct.map fun n => Char.ofNat (n - pad key blob.iv)⟩
  else none

theorem decrypt_encrypt (data : String) (key : Nat) (iv : List Nat) :
    decryptWithKey (encryptWithKey data key iv) key = some data := by
  simp only [encryptWithKey, decryptWithKey, if_pos]
  cases data with
  | mk l =>
    simp [List.map_map, Function.comp_def, Nat.add_sub_cancel, Char.ofNat_toNat]

theorem decrypt_encrypt_ne (data : String) (k k' : Nat) (iv : List Nat) (h : k' ≠ k) :
    decryptWithKey (encryptWithKey data k iv) k' = none := by
  simp only [encryptWithKey, decryptWithKey]
  rw [if_neg]
  intro hc
  exact h (congrArg Prod.fst hc).symm

theorem deriveKey_ne_of_salt_ne (p p' : String) {s s' : List Nat} (h : s ≠ s') :
    deriveKey p s ≠ deriveKey p' s' := by
  simp only [deriveKey, Ne, Nat.pair_eq_pair]
  rintro ⟨-, h2⟩
  exact h (encodeList_inj _ _ h2)

end CryptoService

/-- Result of `validatePassphraseStrength` (src/lib/db.ts). -/
structure PassphraseValidation where
  isValid : Bool
  errors : List String
deriving DecidableEq

/-- Model of `validatePassphraseStrength`: at least 12 characters, one
lowercase, one uppercase, one digit, one special character. -/
def validatePassphraseStrength (passphrase : String) : PassphraseValidation :=
  let errors : List String :=
    (if passphrase.length < 12 then ["Passphrase must be at least 12 characters long"] else [])
    ++ (if passphrase.data.any Char.isLower then [] else
        ["Passphrase must contain at least one lowercase letter"])
    ++ (if passphrase.data.any Char.isUpper then [] else
        ["Passphrase must contain at least one uppercase letter"])
    ++ (if passphrase.data.any Char.isDigit then [] else
        ["Passphrase must contain at least one number"])
    ++ (if passphrase.data.any (fun c => !(c.isLower || c.isUpper || c.isDigit)) then [] else
        ["Passphrase must contain at least one special character"])
  ⟨errors.isEmpty, errors⟩

/-- The `Settings` record (src/lib/db.ts). Timeouts are in milliseconds. -/
structure Settings where
  defaultFontSize : Nat
  defaultScrollSpeed : Nat
  defaultBackgroundColor : String
  defaultTextColor : String
  sessionTimeout : Nat
  inactivityTimeout : Nat
deriving DecidableEq

/-- `Partial<Settings>`: every field optional. -/
structure SettingsPatch where
  defaultFontSize : Option Nat := none
  defaultScrollSpeed : Option Nat := none
  defaultBackgroundColor : Option String := none
  defaultTextColor : Option String := none
  sessionTimeout : Option Nat := none
  inactivityTimeout : Option Nat := none
deriving DecidableEq

/-- Model of the regex `#[0-9A-Fa-f]` followed by 6 hex digits. -/
def isHexColor (s : String) : Bool :=
  match s.data with
  | '#' :: rest =>
    rest.length == 6 &&
      rest.all fun c => c.isDigit || ('A' ≤ c && c ≤ 'F') || ('a' ≤ c && c ≤ 'f')
  | _ => false

/-- Result of `validateSettings`: validity flag and field/message pairs. -/
structure SettingsValidation where
  isValid : Bool
  errors : List (String × String)
deriving DecidableEq

/-- Model of `validateSettings` (src/lib/db.ts): range checks on present
fields; session timeout must lie in 5 minutes to 8 hours, inactivity timeout
in 5 minutes to 2 hours. -/
def validateSettings (settings : SettingsPatch) : SettingsValidation :=
  let errors : List (String × String) :=
    (match settings.defaultFontSize with
      | some v => if v < 24 || v > 120 then
          [("defaultFontSize", "Font size must be between 24 and 120")] else []
      | none => [])
    ++ (match settings.defaultScrollSpeed with
      | some v => if v < 1 || v > 10 then
          [("defaultScrollSpeed", "Scroll speed must be between 1 and 10")] else []
      | none => [])
    ++ (match settings.sessionTimeout with
      | some v => if v < 300000 || v > 28800000 then
          [("sessionTimeout", "Session timeout must be between 5 minutes and 8 hours")] else []
      | none => [])
    ++ (match settings.inactivityTimeout with
      | some v => if v < 300000 || v > 7200000 then
          [("inactivityTimeout", "Inactivity timeout must be between 5 minutes and 2 hours")] else []
      | none => [])
    ++ (match settings.defaultBackgroundColor with
      | some v => if isHexColor v then [] else
          [("defaultBackgroundColor", "Invalid color format")]
      | none => [])
    ++ (match settings.defaultTextColor with
      | some v => if isHexColor v then [] else
          [("defaultTextColor", "Invalid color format")]
      | none => [])
  ⟨errors.isEmpty, errors⟩

/-- A plaintext `Script` document (src/lib/db.ts). -/
structure Script where
  id : String
  title : String
  content : String
  createdAt : Nat
  updatedAt : Nat
  fontSize : Nat
  scrollSpeed : Nat
  backgroundColor : String
  textColor : String
  mirrorMode : Bool
  voiceControlEnabled : Bool
deriving DecidableEq

/-- A script record as persisted in the `scripts` object store: identical to
`Script` except that `content` is the encrypted blob. -/
structure ScriptRec where
  id : String
  title : String
  content : EncBlob
  createdAt : Nat
  updatedAt : Nat
  fontSize : Nat
  scrollSpeed : Nat
  backgroundColor : String
  textColor : String
  mirrorMode : Bool
  voiceControlEnabled : Bool
deriving DecidableEq

/-- `Omit<Script, 'id' | 'createdAt' | 'updatedAt'>`, the argument of
`saveScript`. -/
structure NewScript where
  title : String
  content : String
  fontSize : Nat
  scrollSpeed : Nat
  backgroundColor : String
  textColor : String
  mirrorMode : Bool
  voiceControlEnabled : Bool
deriving DecidableEq

/-- `Partial<Script>`: the `updates` argument of `updateScript`. -/
structure ScriptPatch where
  id : Option String := none
  title : Option String := none
  content : Option String := none
  createdAt : Option Nat := none
  updatedAt : Option Nat := none
  fontSize : Option Nat := none
  scrollSpeed : Option Nat := none
  backgroundColor : Option String := none
  textColor : Option String := none
  mirrorMode : Option Bool := none
  voiceControlEnabled : Option Bool := none
deriving DecidableEq

/-- `{ ...fullScript, content: encryptedContent }`: the record written to the
scripts store. -/
def encryptScript (s : Script) (key : Nat) (iv : List Nat) : ScriptRec :=
  ⟨s.id, s.title, CryptoService.encryptWithKey s.content key iv, s.createdAt, s.updatedAt,
    s.fontSize, s.scrollSpeed, s.backgroundColor, s.textColor, s.mirrorMode,
    s.voiceControlEnabled⟩

/-- `{ ...script, content: decryptedContent }`: decrypt a stored record back
into a plaintext document; `none` when the blob fails to authenticate. -/
def decryptRec (r : ScriptRec) (key : Nat) : Option Script :=
  (CryptoService.decryptWithKey r.content key).map fun c =>
    ⟨r.id, r.title, c, r.createdAt, r.updatedAt, r.fontSize, r.scrollSpeed,
      r.backgroundColor, r.textColor, r.mirrorMode, r.voiceControlEnabled⟩

/-- `{ ...existingScript, ...updates, updatedAt: Date.now() }`: spread merge of
a partial patch over the existing document. Note the spread order: a field
present in `updates` (including `id` and `createdAt`) wins over the existing
value, and `updatedAt` is then forced to `now`. -/
def mergeScript (existing : Script) (u : ScriptPatch) (now : Nat) : Script :=
  ⟨u.id.getD existing.id, u.title.getD existing.title, u.content.getD existing.content,
    u.createdAt.getD existing.createdAt, now,
    u.fontSize.getD existing.fontSize, u.scrollSpeed.getD existing.scrollSpeed,
    u.backgroundColor.getD existing.backgroundColor, u.textColor.getD existing.textColor,
    u.mirrorMode.getD existing.mirrorMode,
    u.voiceControlEnabled.getD existing.voiceControlEnabled⟩

/-- Errors surfaced by `DatabaseService` operations. -/
inductive DbError where
  /-- `Database not unlocked` / `Database not initialized`. -/
  | notUnlocked
  /-- `Script not found`. -/
  | notFound
  /-- `Invalid key or corrupted data` propagated from decryption. -/
  | authError
  /-- IndexedDB `add()` rejecting a duplicate primary key. -/
  | constraintError
deriving DecidableEq

/-- The in-memory and persisted state of `DatabaseService` together with the
stores it touches: the private fields `db`/`encryptionKey`/`keySalt`/timer
handles, the `scripts` object store, the three records of the `settings`
object store, and the `telims_session_expiry` localStorage slot. -/
structure DbState where
  dbInit : Bool
  encryptionKey : Option Nat
  keySalt : Option (List Nat)
  scripts : List ScriptRec
  saltRec : Option (List Nat)
  tokenRec : Option EncBlob
  settingsRec : Option Settings
  sessionExpiry : Option Nat
  timersOn : Bool
deriving DecidableEq

/-- `DatabaseService.isUnlocked`. -/
def isUnlocked (st : DbState) : Bool := st.encryptionKey.isSome

/-- The default settings object materialized by `getSettings` when no record
is stored. -/
def defaultSettings : Settings :=
  ⟨48, 2, "#000000", "#ffffff", 7200000, 1800000⟩

/-- `DatabaseService.updateSessionExpiry`: persists
`Date.now() + sessionTimeout` in localStorage, with `sessionTimeout` the
hardcoded constant `2 * 60 * 60 * 1000`. -/
def updateSessionExpiry (now : Nat) (st : DbState) : DbState :=
  { st with sessionExpiry := some (now + 2 * 60 * 60 * 1000) }

/-- `startSessionTimer` followed by `updateSessionExpiry`, as executed at the
end of a successful `unlock`. -/
def startSession (now : Nat) (st : DbState) : DbState :=
  updateSessionExpiry now { st with timersOn := true }

/-- Model of `DatabaseService.unlock`. Explicit parameters stand for the
platform effects: `freshSalt` is the 16-byte output of
`crypto.getRandomValues` consumed in first-time mode, `tokenIv` the nonce
drawn when encrypting the validation token, `now` the clock, and
`storeFails` injects a storage exception into the first-time writes
(`storeSalt` / `createValidationToken`), which the surrounding
`try/catch` converts into a `false` return with the key discarded. -/
def unlock (passphrase : String) (isFirstTime : Bool) (freshSalt : List Nat)
    (tokenIv : List Nat) (now : Nat) (storeFails : Bool) (st₀ : DbState) :
    Bool × DbState :=
  let st := { st₀ with dbInit := true }
  match (if isFirstTime then some freshSalt else st.saltRec) with
  | none => (false, st)
  | some salt =>
    let key := CryptoService.deriveKey passphrase salt
    let st := { st with encryptionKey := some key, keySalt := some salt }
    if isFirstTime then
      if storeFails then
        (false, { st with encryptionKey := none, keySalt := none })
      else
        (true, startSession now
          { st with saltRec := some salt,
                    tokenRec := some (CryptoService.encryptWithKey "telims_valid" key tokenIv) })
    else
      match st.tokenRec with
      | none => (false, { st with encryptionKey := none, keySalt := none })
      | some tok =>
        match CryptoService.decryptWithKey tok key with
        | some m =>
          if m = "telims_valid" then (true, startSession now st)
          else (false, { st with encryptionKey := none, keySalt := none })
        | none => (false, { st with encryptionKey := none, keySalt := none })

/-- `DatabaseService.hasExistingVault`: a vault exists iff the
`validation_token` record is present. -/
def hasExistingVault (st : DbState) : Bool := st.tokenRec.isSome

/-- `{ ...script, id: crypto.randomUUID(), createdAt: now, updatedAt: now }`:
the full document assembled by `saveScript`. -/
def mkScript (script : NewScript) (newId : String) (now : Nat) : Script :=
  ⟨newId, script.title, script.content, now, now, script.fontSize, script.scrollSpeed,
    script.backgroundColor, script.textColor, script.mirrorMode,
    script.voiceControlEnabled⟩

/-- `DatabaseService.saveScript`: requires `db` and `encryptionKey`; assigns
the fresh id `newId` (from `crypto.randomUUID`), sets both timestamps to
`now`, encrypts the content with nonce `iv`, and `add`s the record (IndexedDB
`add` rejects when the primary key already exists). -/
def saveScript (script : NewScript) (newId : String) (iv : List Nat) (now : Nat)
    (st : DbState) : Except DbError (Script × DbState) :=
  match st.encryptionKey, st.dbInit with
  | some key, true =>
    let full : Script := mkScript script newId now
    if st.scripts.any fun r => r.id == newId then .error .constraintError
    else .ok (full, { st with scripts := st.scripts ++ [encryptScript full key iv] })
  | _, _ => .error .notUnlocked

/-- `DatabaseService.getScript`: requires `db` and `encryptionKey`; `none`
when the id is absent; propagates the decryption error otherwise. -/
def getScript (id : String) (st : DbState) : Except DbError (Option Script) :=
  match st.encryptionKey, st.dbInit with
  | some key, true =>
    match st.scripts.find? fun r => r.id == id with
    | none => .ok none
    | some r =>
      match decryptRec r key with
      | some s => .ok (some s)
      | none => .error .authError
  | _, _ => .error .notUnlocked

/-- IndexedDB `put`: replace the record with the same primary key, or insert
it if absent. -/
def putScript (r : ScriptRec) (l : List ScriptRec) : List ScriptRec :=
  if l.any fun x => x.id == r.id then l.map fun x => if x.id == r.id then r else x
  else l ++ [r]

/-- `DatabaseService.updateScript`: loads and decrypts the existing record,
spread-merges `updates` over it, stamps `updatedAt := now`, re-encrypts the
content with nonce `iv` and `put`s the result. -/
def updateScript (id : String) (updates : ScriptPatch) (iv : List Nat) (now : Nat)
    (st : DbState) : Except DbError (Script × DbState) :=
  match st.encryptionKey, st.dbInit with
  | some key, true =>
    match getScript id st with
    | .error e => .error e
    | .ok none => .error .notFound
    | .ok (some existing) =>
      let merged := mergeScript existing updates now
      .ok (merged, { st with scripts := putScript (encryptScript merged key iv) st.scripts })
  | _, _ => .error .notUnlocked

/-- Insertion step of the `updatedAt` index enumeration in `prev`
direction: keep earlier records first while they have a
greater-or-equal `updatedAt`. -/
def insertByUpdatedDesc (r : ScriptRec) : List ScriptRec → List ScriptRec
  | [] => [r]
  | x :: xs => if r.updatedAt ≤ x.updatedAt then x :: insertByUpdatedDesc r xs
               else r :: x :: xs

/-- Model of iterating the `updatedAt` index with a `prev` cursor: the stored
records sorted by `updatedAt` descending. -/
def sortByUpdatedDesc (l : List ScriptRec) : List ScriptRec :=
  l.foldl (fun acc r => insertByUpdatedDesc r acc) []

/-- `Promise.all` over per-record decryption: fail-fast — the first record
that fails to authenticate rejects the whole batch. -/
def decryptAll (key : Nat) : List ScriptRec → Except DbError (List Script)
  | [] => .ok []
  | r :: rs =>
    match decryptRec r key with
    | none => .error .authError
    | some s =>
      match decryptAll key rs with
      | .error e => .error e
      | .ok l => .ok (s :: l)

/-- `DatabaseService.getAllScripts`: requires `db` and `encryptionKey`; reads
all records newest-`updatedAt` first and decrypts them all, rejecting the
whole batch on any single decryption failure. -/
def getAllScripts (st : DbState) : Except DbError (List Script) :=
  match st.encryptionKey, st.dbInit with
  | some key, true => decryptAll key (sortByUpdatedDesc st.scripts)
  | _, _ => .error .notUnlocked

/-- `DatabaseService.deleteScript`: guarded only by `if (!this.db)` — the
encryption key is not consulted; unconditional, idempotent removal. -/
def deleteScript (id : String) (st : DbState) : Except DbError DbState :=
  if st.dbInit then .ok { st with scripts := st.scripts.filter fun r => r.id != id }
  else .error .notUnlocked

/-- `DatabaseService.getSettings`: guarded only by `if (!this.db)`; returns
the stored record or the defaults (without persisting them). -/
def getSettings (st : DbState) : Except DbError Settings :=
  if st.dbInit then .ok (st.settingsRec.getD defaultSettings)
  else .error .notUnlocked

/-- `{ ...currentSettings, ...settings }`: spread merge of a settings patch. -/
def applySettingsPatch (s : Settings) (p : SettingsPatch) : Settings :=
  ⟨p.defaultFontSize.getD s.defaultFontSize, p.defaultScrollSpeed.getD s.defaultScrollSpeed,
    p.defaultBackgroundColor.getD s.defaultBackgroundColor,
    p.defaultTextColor.getD s.defaultTextColor,
    p.sessionTimeout.getD s.sessionTimeout, p.inactivityTimeout.getD s.inactivityTimeout⟩

/-- `DatabaseService.updateSettings`: guarded only by `if (!this.db)`; merges
the patch over current settings and `put`s the singleton record. -/
def updateSettings (p : SettingsPatch) (st : DbState) : Except DbError (Settings × DbState) :=
  if st.dbInit then
    let updated := applySettingsPatch (st.settingsRec.getD defaultSettings) p
    .ok (updated, { st with settingsRec := some updated })
  else .error .notUnlocked

/-- Outcome of the unlock screen's `handleUnlock` guard logic: either an error
message is shown without touching the vault, or `onUnlock` (and through the
storage context, `db.unlock`) is invoked. -/
inductive UiUnlockAction where
  | rejected (message : String)
  | callUnlock (passphrase : String) (isFirstTime : Bool)
deriving DecidableEq

/-- Model of `String.prototype.trim`: drop whitespace from both ends. -/
def trimStr (s : String) : String :=
  ⟨((s.data.dropWhile Char.isWhitespace).reverse.dropWhile Char.isWhitespace).reverse⟩

/-- Model of the guard section of `handleUnlock` in
`src/components/app/unlock-screen.tsx`: empty input, a failed strength
policy (first-time) or a confirmation mismatch (first-time) short-circuit
with an error before `onUnlock` is ever called. -/
def handleUnlockGuard (passphrase confirmPassphrase : String) (isFirstTime : Bool) :
    UiUnlockAction :=
  if trimStr passphrase = "" then .rejected "Please enter a passphrase."
  else if isFirstTime && !(validatePassphraseStrength passphrase).isValid then
    .rejected "Please meet all passphrase requirements."
  else if isFirstTime && passphrase != confirmPassphrase then
    .rejected "Passphrases do not match."
  else .callUnlock passphrase isFirstTime

/-- A freshly created, never-unlocked state: nothing stored, nothing in
memory. -/
def emptyState : DbState := ⟨false, none, none, [], none, none, none, none, false⟩

/-! ## Helper lemmas -/

theorem find?_id_eq {l : List ScriptRec} {id : String} {r : ScriptRec}
    (h : l.find? (fun x => x.id == id) = some r) : r.id = id := by
  have := List.find?_some h
  simpa using this

theorem decryptRec_id {r : ScriptRec} {key : Nat} {s : Script}
    (h : decryptRec r key = some s) : s.id = r.id := by
  unfold decryptRec at h
  rw [Option.map_eq_some'] at h
  obtain ⟨c, -, hc⟩ := h
  rw [← hc]

theorem getScript_id {id : String} {st : DbState} {s : Script}
    (h : getScript id st = .ok (some s)) : s.id = id := by
  unfold getScript at h
  cases hk : st.encryptionKey with
  | none => simp [hk] at h
  | some key =>
    cases hdb : st.dbInit with
    | false => simp [hk, hdb] at h
    | true =>
      simp only [hk, hdb] at h
      cases hf : st.scripts.find? (fun x => x.id == id) with
      | none => simp [hf] at h
      | some r =>
        simp only [hf] at h
        cases hd : decryptRec r key with
        | none => simp [hd] at h
        | some s0 =>
          simp only [hd, Except.ok.injEq, Option.some.injEq] at h
          subst h
          rw [decryptRec_id hd, find?_id_eq hf]

theorem getScript_found {id : String} {st : DbState} {s : Script}
    (h : getScript id st = .ok (some s)) :
    st.scripts.any (fun x => x.id == id) = true := by
  unfold getScript at h
  cases hk : st.encryptionKey with
  | none => simp [hk] at h
  | some key =>
    cases hdb : st.dbInit with
    | false => simp [hk, hdb] at h
    | true =>
      simp only [hk, hdb] at h
      cases hf : st.scripts.find? (fun x => x.id == id) with
      | none => simp [hf] at h
      | some r =>
        have hp := List.find?_some hf
        rw [List.any_eq_true]
        exact ⟨r, List.mem_of_find?_eq_some hf, hp⟩

theorem putScript_ids_of_any {r : ScriptRec} {l : List ScriptRec}
    (h : l.any (fun x => x.id == r.id) = true) :
    (putScript r l).map (fun x => x.id) = l.map (fun x => x.id) := by
  simp only [putScript, h, if_pos, List.map_map]
  refine List.map_congr_left fun x _ => ?_
  by_cases hx : x.id == r.id
  · simp [Function.comp_def, beq_iff_eq.mp hx]
  · simp only [Function.comp_def]
    rw [if_neg (by simpa using hx)]

theorem mem_insertByUpdatedDesc {a r : ScriptRec} {l : List ScriptRec} :
    a ∈ insertByUpdatedDesc r l ↔ a = r ∨ a ∈ l := by
  induction l with
  | nil => simp [insertByUpdatedDesc]
  | cons x xs ih =>
    simp only [insertByUpdatedDesc]
    split
    · simp [ih]
      tauto
    · simp

theorem mem_sortByUpdatedDesc {a : ScriptRec} {l : List ScriptRec} :
    a ∈ sortByUpdatedDesc l ↔ a ∈ l := by
  suffices h : ∀ acc, a ∈ l.foldl (fun acc r => insertByUpdatedDesc r acc) acc ↔
      a ∈ l ∨ a ∈ acc by
    simpa [sortByUpdatedDesc] using h []
  induction l with
  | nil => intro acc; simp
  | cons x xs ih =>
    intro acc
    rw [List.foldl_cons, ih]
    simp [mem_insertByUpdatedDesc]
    tauto

theorem decryptAll_error_of_mem {key : Nat} {l : List ScriptRec} {r : ScriptRec}
    (hr : r ∈ l) (hbad : decryptRec r key = none) :
    decryptAll key l = .error .authError := by
  induction l with
  | nil => cases hr
  | cons x xs ih =>
    rcases List.mem_cons.mp hr with h | h
    · subst h
      simp [decryptAll, hbad]
    · unfold decryptAll
      cases hx : decryptRec x key with
      | none => rfl
      | some s => rw [ih h]

theorem decryptRec_encryptScript (s : Script) (k : Nat) (iv : List Nat) :
    decryptRec (encryptScript s k iv) k = some s := by
  simp [decryptRec, encryptScript, CryptoService.decrypt_encrypt]

/-! ## Sample states used by witnesses and counterexamples -/

/-- A sample plaintext document. -/
def sampleScript : Script := ⟨"a", "t", "c", 1, 1, 48, 2, "#000000", "#ffffff", false, false⟩

/-- An initialized but locked state holding one (opaque) stored record. -/
def sampleLockedState : DbState :=
  ⟨true, none, none,
    [⟨"a", "t", ⟨[0], [0], (0, [0], [0])⟩, 1, 1, 48, 2, "#000000", "#ffffff", false, false⟩],
    none, none, none, none, false⟩

/-- An unlocked state (key 5) holding `sampleScript` encrypted at rest. -/
def sampleUnlockedState : DbState :=
  ⟨true, some 5, some [0], [encryptScript sampleScript 5 [7]], some [0], none, none, none, true⟩

/-- A stored record whose blob does not authenticate under key 0. -/
def sampleBadRec : ScriptRec :=
  ⟨"x", "t", ⟨[1], [2], (99, [1], [2])⟩, 1, 1, 48, 2, "#000000", "#ffffff", false, false⟩

/-- An unlocked state (key 0) whose only stored record fails to decrypt. -/
def sampleBadState : DbState := ⟨true, some 0, none, [sampleBadRec], none, none, none, none, true⟩

/-- An unlocked empty vault (key 7) for the save/save/getAll scenario. -/
def sampleEmptyUnlocked : DbState := ⟨true, some 7, some [0], [], some [0], none, none, none, true⟩

/-- A settings record configuring the minimum legal session timeout. -/
def configuredSettings : Settings := { defaultSettings with sessionTimeout := 300000 }

/-- An initialized state holding `configuredSettings`. -/
def configuredState : DbState :=
  { emptyState with dbInit := true, settingsRec := some configuredSettings }

/-! ## Claim theorems -/

/-- Claim C1, counterexample: `DatabaseService.unlock("short", true)` performs
no strength check — it returns `true` and persists both the salt record and
the validation token, even though `"short"` fails the strength policy. -/
theorem unlock_weak_passphrase_creates_vault :
    (validatePassphraseStrength "short").isValid = false ∧
    (unlock "short" true [0] [1] 0 false emptyState).1 = true ∧
    (unlock "short" true [0] [1] 0 false emptyState).2.saltRec = some [0] ∧
    (unlock "short" true [0] [1] 0 false emptyState).2.tokenRec.isSome = true := by
  decide

/-- Claim C1, amended: the strength policy is enforced one layer up — for any
first-time passphrase failing `validatePassphraseStrength`, the unlock
screen's `handleUnlock` guard rejects with an error and never invokes
`unlock`, so no key derivation or storage write occurs. -/
theorem weak_passphrase_rejected_by_ui_guard (p c : String)
    (h : (validatePassphraseStrength p).isValid = false) :
    ∀ (q : String) (b : Bool), handleUnlockGuard p c true ≠ .callUnlock q b := by
  intro q b
  unfold handleUnlockGuard
  split
  · simp
  · rw [if_pos (by simp [h])]
    simp

/-- Witness for `weak_passphrase_rejected_by_ui_guard` at `"short"`. -/
theorem weak_passphrase_rejected_by_ui_guard_witness :
    (validatePassphraseStrength "short").isValid = false ∧
    handleUnlockGuard "short" "short" true ≠ .callUnlock "short" true :=
  ⟨by decide, weak_passphrase_rejected_by_ui_guard "short" "short" (by decide) "short" true⟩

/-- Claim C2, counterexample: with the database initialized but the session
Locked (no key in memory), `deleteScript` succeeds and removes the record —
it does not fail with a NotUnlocked error. -/
theorem deleteScript_succeeds_while_locked :
    isUnlocked sampleLockedState = false ∧
    deleteScript "a" sampleLockedState = .ok { sampleLockedState with scripts := [] } := by
  decide

/-- Claim C2, amended: while the session is Locked, `saveScript`,
`updateScript`, `getScript` and `getAllScripts` all fail with the
NotUnlocked error, but `deleteScript` requires only database initialization
and succeeds. -/
theorem locked_ops_fail_except_delete (st : DbState) (hdb : st.dbInit = true)
    (hlocked : st.encryptionKey = none) (s : NewScript) (newId : String)
    (iv : List Nat) (now : Nat) (id₁ id₂ id₃ : String) (u : ScriptPatch) :
    saveScript s newId iv now st = .error .notUnlocked ∧
    updateScript id₁ u iv now st = .error .notUnlocked ∧
    getScript id₂ st = .error .notUnlocked ∧
    getAllScripts st = .error .notUnlocked ∧
    deleteScript id₃ st = .ok { st with scripts := st.scripts.filter fun r => r.id != id₃ } := by
  refine ⟨?_, ?_, ?_, ?_, ?_⟩ <;>
    simp [saveScript, updateScript, getScript, getAllScripts, deleteScript, hlocked, hdb]

/-- Witness for `locked_ops_fail_except_delete` on `sampleLockedState`. -/
theorem locked_ops_fail_except_delete_witness :
    saveScript ⟨"t", "c", 48, 2, "#000000", "#ffffff", false, false⟩ "n" [0] 0
      sampleLockedState = .error .notUnlocked ∧
    updateScript "a" { title := some "u" } [0] 0 sampleLockedState = .error .notUnlocked ∧
    getScript "a" sampleLockedState = .error .notUnlocked ∧
    getAllScripts sampleLockedState = .error .notUnlocked ∧
    deleteScript "a" sampleLockedState =
      .ok { sampleLockedState with
              scripts := sampleLockedState.scripts.filter fun r => r.id != "a" } :=
  locked_ops_fail_except_delete sampleLockedState rfl rfl
    ⟨"t", "c", 48, 2, "#000000", "#ffffff", false, false⟩ "n" [0] 0 "a" "a" "a"
    { title := some "u" }

/-- Claim C3: starting from a Locked session, whenever `unlock` returns
`false` — wrong passphrase, absent salt, or an injected storage exception —
the in-memory key is discarded: `isUnlocked` is `false` on the resulting
state, so unlock never partially succeeds. -/
theorem unlock_false_leaves_locked (p : String) (ft : Bool) (fs tiv : List Nat)
    (now : Nat) (sf : Bool) (st : DbState) (hlocked : st.encryptionKey = none)
    (hfail : (unlock p ft fs tiv now sf st).1 = false) :
    isUnlocked (unlock p ft fs tiv now sf st).2 = false := by
  unfold unlock at hfail ⊢
  unfold isUnlocked
  cases ft with
  | true =>
    cases sf with
    | true => simp
    | false => simp at hfail
  | false =>
    cases hsalt : st.saltRec with
    | none => simp [hsalt, hlocked]
    | some salt =>
      cases htok : st.tokenRec with
      | none => simp [hsalt, htok]
      | some tok =>
        cases hdec : CryptoService.decryptWithKey tok (CryptoService.deriveKey p salt) with
        | none => simp [hsalt, htok, hdec]
        | some m =>
          by_cases hm : m = "telims_valid"
          · simp [hsalt, htok, hdec, hm] at hfail
          · simp [hsalt, htok, hdec, hm]

/-- Witness for `unlock_false_leaves_locked`: a returning-user unlock against
an empty store (no salt) returns false and leaves no key. -/
theorem unlock_false_leaves_locked_witness :
    emptyState.encryptionKey = none ∧
    (unlock "x" false [] [] 0 false emptyState).1 = false ∧
    isUnlocked (unlock "x" false [] [] 0 false emptyState).2 = false :=
  ⟨rfl, by decide, unlock_false_leaves_locked "x" false [] [] 0 false emptyState rfl (by decide)⟩

/-- Claim C4: for every plaintext `P`, key `K` and (12-byte) nonce, decrypting
the blob produced by `encryptWithKey` under the same key returns exactly
`P`. -/
theorem decrypt_encrypt_roundtrip (P : String) (K : Nat) (iv : List Nat)
    (_hiv : iv.length = 12) :
    CryptoService.decryptWithKey (CryptoService.encryptWithKey P K iv) K = some P :=
  CryptoService.decrypt_encrypt P K iv

/-- Witness for `decrypt_encrypt_roundtrip` at a concrete plaintext, key and
nonce. -/
theorem decrypt_encrypt_roundtrip_witness :
    (List.replicate 12 0).length = 12 ∧
    CryptoService.decryptWithKey
      (CryptoService.encryptWithKey "hello" 3 (List.replicate 12 0)) 3 = some "hello" :=
  ⟨by decide, decrypt_encrypt_roundtrip "hello" 3 (List.replicate 12 0) (by decide)⟩

/-- Claim C5 (code bug): `sessionTimeout = 300000` (5 minutes) passes settings
validation and is readable from the configured state, yet
`updateSessionExpiry` persists `now + 7200000` — the hardcoded 2 hours —
instead of `now + sessionTimeout`. -/
theorem session_expiry_ignores_configured_timeout :
    (validateSettings { sessionTimeout := some 300000 }).isValid = true ∧
    getSettings configuredState = .ok configuredSettings ∧
    (updateSessionExpiry 1000 configuredState).sessionExpiry = some (1000 + 7200000) ∧
    some (1000 + 7200000) ≠ some (1000 + configuredSettings.sessionTimeout) := by
  decide

/-- Claim C6, counterexample: because `updates` is spread after the existing
document, `updateScript "a" (patch with id := "b")` returns a document whose
id is `"b"`, and persists it as a second record (ids `["a", "b"]`) — the
identifier is not preserved for arbitrary patches. -/
theorem updateScript_can_change_id :
    (updateScript "a" { id := some "b" } [9] 2 sampleUnlockedState).map
      (fun x => x.1.id) = .ok "b" ∧
    (updateScript "a" { id := some "b" } [9] 2 sampleUnlockedState).map
      (fun x => x.2.scripts.map fun r => r.id) = .ok ["a", "b"] := by
  decide

/-- Claim C6, amended: whenever the patch does not contain an `id` field, a
successful `updateScript id updates` returns a document still carrying `id`,
and the persisted store holds exactly the same identifiers as before (the
record is replaced in place). -/
theorem updateScript_preserves_id (id : String) (u : ScriptPatch) (hu : u.id = none)
    (iv : List Nat) (now : Nat) (st : DbState) (s : Script) (st₂ : DbState)
    (h : updateScript id u iv now st = .ok (s, st₂)) :
    s.id = id ∧ st₂.scripts.map (fun r => r.id) = st.scripts.map (fun r => r.id) := by
  unfold updateScript at h
  cases hk : st.encryptionKey with
  | none => simp [hk] at h
  | some key =>
    cases hdb : st.dbInit with
    | false => simp [hk, hdb] at h
    | true =>
      simp only [hk, hdb] at h
      cases hg : getScript id st with
      | error e => simp [hg] at h
      | ok o =>
        cases o with
        | none => simp [hg] at h
        | some existing =>
          simp only [hg, Except.ok.injEq, Prod.mk.injEq] at h
          obtain ⟨h1, h2⟩ := h
          have hid : (mergeScript existing u now).id = id := by
            simp [mergeScript, hu, getScript_id hg]
          refine ⟨by rw [← h1]; exact hid, ?_⟩
          rw [← h2]
          have hany : st.scripts.any
              (fun x => x.id == (encryptScript (mergeScript existing u now) key iv).id) = true := by
            have hre : (encryptScript (mergeScript existing u now) key iv).id = id := hid
            rw [hre]
            exact getScript_found hg
          simpa using putScript_ids_of_any hany

/-- Witness for `updateScript_preserves_id`: a title-only patch on the sample
unlocked state keeps the identifier and the stored id list. -/
theorem updateScript_preserves_id_witness :
    ({ sampleScript with title := "u", updatedAt := 2 } : Script).id = "a" ∧
    ({ sampleUnlockedState with
        scripts := [encryptScript { sampleScript with title := "u", updatedAt := 2 } 5 [9]]
      } : DbState).scripts.map (fun r => r.id) =
      sampleUnlockedState.scripts.map (fun r => r.id) :=
  updateScript_preserves_id "a" { title := some "u" } rfl [9] 2 sampleUnlockedState
    { sampleScript with title := "u", updatedAt := 2 }
    { sampleUnlockedState with
        scripts := [encryptScript { sampleScript with title := "u", updatedAt := 2 } 5 [9]] }
    (by decide)

/-- Claim C7: if any single stored record fails to decrypt under the live
key, `getAllScripts` fails with the decryption error — the whole batch is
aborted and no documents are returned. -/
theorem getAllScripts_aborts_on_single_failure (st : DbState) (k : Nat)
    (hk : st.encryptionKey = some k) (hdb : st.dbInit = true)
    (r : ScriptRec) (hr : r ∈ st.scripts)
    (hbad : CryptoService.decryptWithKey r.content k = none) :
    getAllScripts st = .error .authError := by
  have hrec : decryptRec r k = none := by simp [decryptRec, hbad]
  unfold getAllScripts
  simp only [hk, hdb]
  exact decryptAll_error_of_mem (mem_sortByUpdatedDesc.mpr hr) hrec

/-- Witness for `getAllScripts_aborts_on_single_failure` on a store whose
only record does not authenticate. -/
theorem getAllScripts_aborts_on_single_failure_witness :
    getAllScripts sampleBadState = .error .authError :=
  getAllScripts_aborts_on_single_failure sampleBadState 0 rfl rfl sampleBadRec
    (by decide) (by decide)

/-- Claim C8: saving document A at time `t₁` and then B at a later time `t₂`
into an empty unlocked vault makes `getAllScripts` return `[B, A]` — newest
`updatedAt` first. -/
theorem getAllScripts_newest_first (A B : NewScript) (idA idB : String)
    (ivA ivB : List Nat) (t₁ t₂ : Nat) (k : Nat) (st₀ : DbState)
    (hdb : st₀.dbInit = true) (hk : st₀.encryptionKey = some k)
    (hempty : st₀.scripts = []) (hid : idA ≠ idB) (ht : t₁ < t₂) :
    ∃ (st₁ st₂ : DbState),
      saveScript A idA ivA t₁ st₀ = .ok (mkScript A idA t₁, st₁) ∧
      saveScript B idB ivB t₂ st₁ = .ok (mkScript B idB t₂, st₂) ∧
      (mkScript A idA t₁).updatedAt = t₁ ∧ (mkScript B idB t₂).updatedAt = t₂ ∧
      getAllScripts st₂ = .ok [mkScript B idB t₂, mkScript A idA t₁] := by
  refine ⟨{ st₀ with scripts := st₀.scripts ++ [encryptScript (mkScript A idA t₁) k ivA] },
    { st₀ with scripts := (st₀.scripts ++ [encryptScript (mkScript A idA t₁) k ivA])
        ++ [encryptScript (mkScript B idB t₂) k ivB] }, ?_, ?_, rfl, rfl, ?_⟩
  · simp [saveScript, hk, hdb, hempty]
  · simp [saveScript, hk, hdb, hempty, encryptScript, mkScript, hid]
  · simp only [getAllScripts, hk, hdb, hempty, List.nil_append, List.singleton_append]
    have hsort : sortByUpdatedDesc
        [encryptScript (mkScript A idA t₁) k ivA, encryptScript (mkScript B idB t₂) k ivB] =
        [encryptScript (mkScript B idB t₂) k ivB, encryptScript (mkScript A idA t₁) k ivA] := by
      simp only [sortByUpdatedDesc, List.foldl_cons, List.foldl_nil, insertByUpdatedDesc]
      rw [if_neg (by simp [encryptScript, mkScript]; omega)]
    rw [hsort]
    simp [decryptAll, decryptRec_encryptScript]

/-- Witness for `getAllScripts_newest_first` with concrete documents and
times. -/
theorem getAllScripts_newest_first_witness :
    ∃ (st₁ st₂ : DbState),
      saveScript ⟨"A", "ca", 48, 2, "#000000", "#ffffff", false, false⟩ "ida" [1] 10
        sampleEmptyUnlocked =
        .ok (mkScript ⟨"A", "ca", 48, 2, "#000000", "#ffffff", false, false⟩ "ida" 10, st₁) ∧
      saveScript ⟨"B", "cb", 48, 2, "#000000", "#ffffff", false, false⟩ "idb" [2] 20 st₁ =
        .ok (mkScript ⟨"B", "cb", 48, 2, "#000000", "#ffffff", false, false⟩ "idb" 20, st₂) ∧
      (mkScript ⟨"A", "ca", 48, 2, "#000000", "#ffffff", false, false⟩ "ida" 10).updatedAt = 10 ∧
      (mkScript ⟨"B", "cb", 48, 2, "#000000", "#ffffff", false, false⟩ "idb" 20).updatedAt = 20 ∧
      getAllScripts st₂ =
        .ok [mkScript ⟨"B", "cb", 48, 2, "#000000", "#ffffff", false, false⟩ "idb" 20,
             mkScript ⟨"A", "ca", 48, 2, "#000000", "#ffffff", false, false⟩ "ida" 10] :=
  getAllScripts_newest_first _ _ "ida" "idb" [1] [2] 10 20 7 sampleEmptyUnlocked
    rfl rfl rfl (by decide) (by decide)

/-- Claim C9: first-time `unlock` never checks for an existing vault — from
any prior state it succeeds, overwrites the stored salt with the fresh random
salt and the validation token with one encrypted under the newly derived key,
and any blob encrypted under a key derived from a different salt no longer
decrypts under the new key. -/
theorem unlock_firstTime_overwrites_vault (st : DbState) (p : String)
    (freshSalt tokenIv : List Nat) (now : Nat) :
    (unlock p true freshSalt tokenIv now false st).1 = true ∧
    (unlock p true freshSalt tokenIv now false st).2.saltRec = some freshSalt ∧
    (unlock p true freshSalt tokenIv now false st).2.tokenRec =
      some (CryptoService.encryptWithKey "telims_valid"
        (CryptoService.deriveKey p freshSalt) tokenIv) ∧
    ∀ (pOld : String) (sOld : List Nat), sOld ≠ freshSalt →
      ∀ (m : String) (ivOld : List Nat),
        CryptoService.decryptWithKey
          (CryptoService.encryptWithKey m (CryptoService.deriveKey pOld sOld) ivOld)
          (CryptoService.deriveKey p freshSalt) = none := by
  refine ⟨rfl, rfl, rfl, ?_⟩
  intro pOld sOld hs m ivOld
  exact CryptoService.decrypt_encrypt_ne m _ _ ivOld
    (CryptoService.deriveKey_ne_of_salt_ne p pOld (Ne.symm hs))

/-- Witness for `unlock_firstTime_overwrites_vault`: re-running first-time
setup over a previously populated vault replaces salt and token, and an old
blob no longer decrypts. -/
theorem unlock_firstTime_overwrites_vault_witness :
    (unlock "x" true [1] [2] 5 false (unlock "old" true [9] [8] 0 false emptyState).2).1 = true ∧
    (unlock "x" true [1] [2] 5 false
      (unlock "old" true [9] [8] 0 false emptyState).2).2.saltRec = some [1] ∧
    (unlock "x" true [1] [2] 5 false
      (unlock "old" true [9] [8] 0 false emptyState).2).2.tokenRec =
      some (CryptoService.encryptWithKey "telims_valid"
        (CryptoService.deriveKey "x" [1]) [2]) ∧
    CryptoService.decryptWithKey
      (CryptoService.encryptWithKey "secret" (CryptoService.deriveKey "old" [9]) [3])
      (CryptoService.deriveKey "x" [1]) = none := by
  have h := unlock_firstTime_overwrites_vault
    (unlock "old" true [9] [8] 0 false emptyState).2 "x" [1] [2] 5
  exact ⟨h.1, h.2.1, h.2.2.1, h.2.2.2 "old" [9] (by decide) "secret" [3]⟩

/-- Claim C10: with the database initialized and the session Locked (no key),
`getSettings` and `updateSettings` both succeed: they require only
initialization, never a live encryption key. -/
theorem settings_ops_succeed_while_locked (st : DbState) (hdb : st.dbInit = true)
    (_hlocked : st.encryptionKey = none) (p : SettingsPatch) :
    getSettings st = .ok (st.settingsRec.getD defaultSettings) ∧
    updateSettings p st =
      .ok (applySettingsPatch (st.settingsRec.getD defaultSettings) p,
        { st with settingsRec := some (applySettingsPatch (st.settingsRec.getD defaultSettings) p) }) := by
  simp [getSettings, updateSettings, hdb]

/-- Witness for `settings_ops_succeed_while_locked` on the locked sample
state. -/
theorem settings_ops_succeed_while_locked_witness :
    getSettings sampleLockedState = .ok (sampleLockedState.settingsRec.getD defaultSettings) ∧
    updateSettings { sessionTimeout := some 600000 } sampleLockedState =
      .ok (applySettingsPatch (sampleLockedState.settingsRec.getD defaultSettings)
            { sessionTimeout := some 600000 },
        { sampleLockedState with
            settingsRec := some (applySettingsPatch
              (sampleLockedState.settingsRec.getD defaultSettings)
              { sessionTimeout := some 600000 }) }) :=
  settings_ops_succeed_while_locked sampleLockedState rfl rfl { sessionTimeout := some 600000 }

end Telims
